import Mathlib

/-!
Shallow embedding of `src/sync.mjs` (formio/monorepo-sync).

Paths are modelled as lists of segments (`path.join`/`path.resolve` become
list append, `path.dirname` becomes `List.dropLast`).  The filesystem is a
finite map from paths to file contents together with a set of directories
(`mkdir -p` inserts the whole parent chain).  External effects (git
subprocesses, HTTP calls, warnings that the claims mention) are recorded in
an event trace; responses of the outside world (HTTP responses, subprocess
success, the output of `git status --porcelain`) are inputs to the model.
`process.exit(1)` and thrown JavaScript errors are the abnormal outcomes.
-/

abbrev SPath := List String

/-- A file-system snapshot: files (path to byte content, modelled as a
string) plus the set of existing directories. -/
structure FS where
  files : List (SPath × String)
  dirs : List SPath
deriving DecidableEq

/-- Lookup of the first entry with the given path. -/
def findEntry : List (SPath × String) → SPath → Option String
  | [], _ => none
  | e :: rest, p => if e.1 = p then some e.2 else findEntry rest p

/-- Drop every entry with the given path. -/
def removeEntry : List (SPath × String) → SPath → List (SPath × String)
  | [], _ => []
  | e :: rest, p => if e.1 = p then removeEntry rest p else e :: removeEntry rest p

/-- Create-or-replace the file at `p` with content `v` (the effect of `cp`). -/
def writeEntry (l : List (SPath × String)) (p : SPath) (v : String) : List (SPath × String) :=
  (p, v) :: removeEntry l p

def FS.read (fs : FS) (p : SPath) : Option String :=
  findEntry fs.files p

/-- Model of `fs.existsSync` on a file path. -/
def FS.existsSync (fs : FS) (p : SPath) : Bool :=
  (fs.read p).isSome

def FS.writeFile (fs : FS) (p : SPath) (v : String) : FS :=
  { fs with files := writeEntry fs.files p v }

def FS.removeFile (fs : FS) (p : SPath) : FS :=
  { fs with files := removeEntry fs.files p }

/-- All non-empty prefixes of a directory path: the chain `mkdir -p` creates. -/
def pathParents (d : SPath) : List SPath :=
  (List.range d.length).map (fun i => d.take (i + 1))

def addDir (ds : List SPath) (q : SPath) : List SPath :=
  if q ∈ ds then ds else ds ++ [q]

/-- Model of `mkdir -p d`: ensure every directory on the chain of `d` exists. -/
def FS.mkdirp (fs : FS) (d : SPath) : FS :=
  { fs with dirs := (pathParents d).foldl addDir fs.dirs }

/-- The five-way change status: the four GitHub statuses the script
recognizes plus the `unknown` sentinel. -/
inductive ChangeStatus where
  | added
  | modified
  | removed
  | renamed
  | unknown
deriving DecidableEq

/-- The script's change format (`{status, path, previous_path}`). -/
structure ChangeEntry where
  status : ChangeStatus
  path : SPath
  previous_path : Option SPath
deriving DecidableEq

/-- Abnormal terminations of the JavaScript runtime that the model tracks:
`path.join` applied to `undefined` throws a TypeError, `toISOString` on an
Invalid Date throws a RangeError, and a failing awaited subprocess rejects. -/
inductive JSError where
  | typeError
  | invalidDateToISOString
  | processFailed
deriving DecidableEq

/-- Observable effects and the log lines the claims are about. -/
inductive Event where
  | rmRfTemp
  | gitClone
  | gitCheckout (branch : String)
  | httpGet (url : String)
  | fsMkdirp (dir : SPath)
  | fsCp (src tgt : SPath)
  | fsRm (p : SPath)
  | gitStatusQuery
  | gitConfigUserName (s : String)
  | gitConfigUserEmail (s : String)
  | gitAddAll
  | gitCommit (msg : String)
  | gitPush (branch : String)
  | httpPostCreatePR (url : String)
  | logNoChanges
  | logWarnMissingSource (p : SPath)
  | logPrCreateFailed (status : Nat) (body : String)
  | logCreatedPR
deriving DecidableEq

/-- Events that commit, push, or create a PR (the publishing side effects). -/
def Event.isPublish : Event → Bool
  | Event.gitCommit _ => true
  | Event.gitPush _ => true
  | Event.httpPostCreatePR _ => true
  | _ => false

/-- Model of `syncChange` (src/sync.mjs lines 148-195).  `rootDir` is
`ROOT_DIR`, `tempDir` is `TEMP_DIR`, `pkg` is the segment list of
`process.env.MONOREPO_PACKAGE_LOCATION`.  Returns the new filesystem and
the trace of effects, or the JavaScript error that the call would throw. -/
def syncChange (rootDir tempDir pkg : SPath) (fs : FS) (change : ChangeEntry) :
    Except JSError (FS × List Event) :=
  let sourcePath := rootDir ++ change.path
  let targetPath := tempDir ++ pkg ++ change.path
  match change.status with
  | ChangeStatus.added | ChangeStatus.modified =>
    -- mkdir -p path.dirname(targetPath) runs before the existence check
    let fs1 := fs.mkdirp targetPath.dropLast
    match fs1.read sourcePath with
    | some v =>
      Except.ok (fs1.writeFile targetPath v,
        [Event.fsMkdirp targetPath.dropLast, Event.fsCp sourcePath targetPath])
    | none =>
      Except.ok (fs1,
        [Event.fsMkdirp targetPath.dropLast, Event.logWarnMissingSource sourcePath])
  | ChangeStatus.removed =>
    if fs.existsSync targetPath then
      Except.ok (fs.removeFile targetPath, [Event.fsRm targetPath])
    else
      Except.ok (fs, [])
  | ChangeStatus.renamed =>
    match change.previous_path with
    | none => Except.error JSError.typeError
    | some pp =>
      let previousTargetPath := tempDir ++ pkg ++ pp
      let fs1 := if fs.existsSync previousTargetPath then fs.removeFile previousTargetPath else fs
      let evs1 := if fs.existsSync previousTargetPath then [Event.fsRm previousTargetPath] else []
      match fs1.read sourcePath with
      | some v =>
        Except.ok ((fs1.mkdirp targetPath.dropLast).writeFile targetPath v,
          evs1 ++ [Event.fsMkdirp targetPath.dropLast, Event.fsCp sourcePath targetPath])
      | none =>
        Except.ok (fs1, evs1 ++ [Event.logWarnMissingSource sourcePath])
  | ChangeStatus.unknown => Except.ok (fs, [])

/-- The replay loop of `syncPR` (lines 214-216): apply each change in order,
accumulating the event trace. -/
def replayAll (rootDir tempDir pkg : SPath) (fs : FS) (acc : List Event) :
    List ChangeEntry → Except JSError (FS × List Event)
  | [] => Except.ok (fs, acc)
  | c :: cs =>
    match syncChange rootDir tempDir pkg fs c with
    | Except.error e => Except.error e
    | Except.ok (fs', evs) => replayAll rootDir tempDir pkg fs' (acc ++ evs) cs

/-- A remote file-change descriptor as returned by the GitHub files API. -/
structure GhFile where
  status : String
  filename : SPath
  previous_filename : Option SPath
deriving DecidableEq

/-- Status normalization of `getPRChanges` (lines 131-138). -/
def normalizeStatus (s : String) : ChangeStatus :=
  if s = "added" then ChangeStatus.added
  else if s = "modified" then ChangeStatus.modified
  else if s = "removed" then ChangeStatus.removed
  else if s = "renamed" then ChangeStatus.renamed
  else ChangeStatus.unknown

/-- The per-descriptor conversion of `getPRChanges` (lines 140-144). -/
def mkChangeEntry (file : GhFile) : ChangeEntry :=
  let status := normalizeStatus file.status
  { status := status
    path := file.filename
    previous_path := if status = ChangeStatus.renamed then file.previous_filename else none }

def getPRChangesList (files : List GhFile) : List ChangeEntry :=
  files.map mkChangeEntry

/-- HTTP response as the script observes it (`ok`, `status`, `statusText`,
and the text body). -/
structure HttpResp where
  ok : Bool
  status : Nat
  statusText : String
  body : String
deriving DecidableEq

structure PRUser where
  login : String
  name : Option String
  email : Option String
deriving DecidableEq

/-- A pull request as parsed from the GitHub API. -/
structure PullRequest where
  number : Nat
  title : String
  html_url : String
  body : Option String
  user : PRUser
  merged_at : Option String
deriving DecidableEq

/-- How a run (or one operation inside it) ends: a value, `process.exit`
with a code, or an uncaught JavaScript error. -/
inductive Outcome (A : Type) where
  | ok (a : A)
  | exit (code : Nat)
  | threw (e : JSError)
deriving DecidableEq

/-- JavaScript truthiness of an optional environment/string value:
`undefined` and the empty string are falsy. -/
def truthy : Option String → Bool
  | none => false
  | some s => !s.isEmpty

/-- JavaScript `a || b` for an optional string `a` and default `b`. -/
def jsOr (a : Option String) (b : String) : String :=
  if truthy a then a.getD b else b

/-- Split an environment path string such as "apps/formio-server" into
segments. -/
def pathOfString (s : String) : SPath :=
  s.splitOn "/"

def apiBase (owner repoName : String) : String :=
  "https://api.github.com/repos/" ++ owner ++ "/" ++ repoName

/-- Model of `getPRDetails` (lines 89-106): one GET; non-ok response exits
with status 1; otherwise the parsed pull request (an input of the model). -/
def getPRDetails (owner repoName prNumber : String) (resp : HttpResp) (pr : PullRequest) :
    List Event × Outcome PullRequest :=
  let url := apiBase owner repoName ++ "/pulls/" ++ prNumber
  if resp.ok then ([Event.httpGet url], Outcome.ok pr)
  else ([Event.httpGet url], Outcome.exit 1)

/-- Model of `getPRChanges` (lines 108-146): one GET; non-ok response exits
with status 1; otherwise the converted change list. -/
def getPRChanges (owner repoName prNumber : String) (resp : HttpResp) (files : List GhFile) :
    List Event × Outcome (List ChangeEntry) :=
  let url := apiBase owner repoName ++ "/pulls/" ++ prNumber ++ "/files"
  if resp.ok then ([Event.httpGet url], Outcome.ok (getPRChangesList files))
  else ([Event.httpGet url], Outcome.exit 1)

/-- External responses consumed by `syncPR`: branch creation success, the
files-API response, `git status --porcelain` output, success of the
commit-side and push subprocesses, and the PR-creation response. -/
structure SyncWorld where
  branchOk : Bool
  filesResp : HttpResp
  files : List GhFile
  gitStatusOut : String
  commitOk : Bool
  pushOk : Bool
  createResp : HttpResp
  createdPrUrl : String
deriving DecidableEq

/-- Model of JavaScript `String.prototype.trim` (and Lean's `String.trim`):
strip leading and trailing whitespace.  Defined over the character list so
that it evaluates inside the kernel. -/
def trimString (s : String) : String :=
  String.mk (((s.toList.dropWhile (fun c => c.isWhitespace)).reverse.dropWhile
    (fun c => c.isWhitespace)).reverse)

def monorepoPullsUrl : String :=
  "https://api.github.com/repos/formio/formio-monorepo/pulls"

/-- The PR body composed at lines 247-255. -/
def prBodyFor (repoName : String) (pr : PullRequest) : String :=
  let base := "This PR syncs changes from [" ++ repoName ++ " PR #" ++ toString pr.number
    ++ "](" ++ pr.html_url ++ ") by @" ++ pr.user.login ++ ".\n\n"
  let withDesc := if truthy pr.body then
      base ++ "## Original PR Description\n\n" ++ pr.body.getD "" ++ "\n\n"
    else base
  withDesc ++ "## Note\n\nThis PR was automatically created by the repository sync tool."

/-- The commit message composed at line 239. -/
def commitMessageFor (pr : PullRequest) : String :=
  "Sync changes from PR #" ++ toString pr.number ++ ": " ++ pr.title
    ++ "\n\nOriginal PR: " ++ pr.html_url

/-- Model of `syncPR` (lines 197-282).  `branchSuffix` stands for the
time-based suffix `Date.now().toString().slice(-6)`. -/
def syncPR (rootDir tempDir pkg : SPath) (owner repoName : String) (w : SyncWorld)
    (fs : FS) (pr : PullRequest) (branchSuffix : String) :
    List Event × Outcome (Option String) :=
  let branchName := "sync-pr-" ++ toString pr.number ++ "-" ++ branchSuffix
  let e0 := [Event.gitCheckout branchName]
  if !w.branchOk then (e0, Outcome.exit 1)
  else
    match getPRChanges owner repoName (toString pr.number) w.filesResp w.files with
    | (e1, Outcome.exit c) => (e0 ++ e1, Outcome.exit c)
    | (e1, Outcome.threw er) => (e0 ++ e1, Outcome.threw er)
    | (e1, Outcome.ok changes) =>
      match replayAll rootDir tempDir pkg fs [] changes with
      | Except.error er => (e0 ++ e1, Outcome.threw er)
      | Except.ok (_, e2) =>
        let e3 := e0 ++ e1 ++ e2 ++ [Event.gitStatusQuery]
        if trimString w.gitStatusOut = "" then
          (e3 ++ [Event.logNoChanges], Outcome.ok none)
        else
          let authorName := jsOr pr.user.name pr.user.login
          let authorEmail := jsOr pr.user.email (pr.user.login ++ "@users.noreply.github.com")
          let e4 := e3 ++ [Event.gitConfigUserName authorName, Event.gitConfigUserEmail authorEmail,
            Event.gitAddAll, Event.gitCommit (commitMessageFor pr)]
          if !w.commitOk then (e4, Outcome.threw JSError.processFailed)
          else
            let e5 := e4 ++ [Event.gitPush branchName]
            if !w.pushOk then (e5, Outcome.threw JSError.processFailed)
            else
              let e6 := e5 ++ [Event.httpPostCreatePR monorepoPullsUrl]
              if !w.createResp.ok then
                (e6 ++ [Event.logPrCreateFailed w.createResp.status w.createResp.body],
                  Outcome.ok none)
              else (e6 ++ [Event.logCreatedPR], Outcome.ok (some w.createdPrUrl))

/-- The environment variables the script reads. -/
structure Env where
  ghToken : Option String
  packageLocation : Option String
  sourceRepoName : Option String
  sourceRepoOwner : Option String
  prNumberEnv : Option String
deriving DecidableEq

/-- Model of `sync` (lines 284-324): validate the four required inputs in
order (each missing one exits with status 1 before any side effect), then
clone, fetch the PR details, and run `syncPR`. -/
def sync (rootDir tempDir : SPath) (argv2 : Option String) (env : Env)
    (cloneOk : Bool) (detailsResp : HttpResp) (prDetails : PullRequest)
    (w : SyncWorld) (fs0 : FS) (branchSuffix : String) : List Event × Outcome Unit :=
  let prNumber := if truthy argv2 then argv2 else env.prNumberEnv
  if !truthy prNumber then ([], Outcome.exit 1)
  else if !truthy env.ghToken then ([], Outcome.exit 1)
  else if !truthy env.packageLocation then ([], Outcome.exit 1)
  else if !truthy env.sourceRepoName then ([], Outcome.exit 1)
  else
    let owner := jsOr env.sourceRepoOwner "formio"
    let repoName := env.sourceRepoName.getD ""
    let pkg := pathOfString (env.packageLocation.getD "")
    let e0 := [Event.rmRfTemp, Event.gitClone]
    if !cloneOk then (e0, Outcome.exit 1)
    else
      match getPRDetails owner repoName (prNumber.getD "") detailsResp prDetails with
      | (e1, Outcome.exit c) => (e0 ++ e1, Outcome.exit c)
      | (e1, Outcome.threw er) => (e0 ++ e1, Outcome.threw er)
      | (e1, Outcome.ok pr) =>
        match syncPR rootDir tempDir pkg owner repoName w fs0 pr branchSuffix with
        | (e2, Outcome.exit c) => (e0 ++ e1 ++ e2, Outcome.exit c)
        | (e2, Outcome.threw er) => (e0 ++ e1 ++ e2, Outcome.threw er)
        | (e2, Outcome.ok _) => (e0 ++ e1 ++ e2, Outcome.ok ())

/-- Value of a non-empty run of leading decimal digits, as `parseInt` reads
them. -/
def digitsValue (cs : List Char) : Option Nat :=
  let ds := cs.takeWhile (fun c => c.isDigit)
  if ds.isEmpty then none
  else some (ds.foldl (fun a c => a * 10 + (c.toNat - 48)) 0)

/-- JavaScript `parseInt` on a string (radix 10): skip leading whitespace,
an optional sign, then leading digits; `none` models `NaN`. -/
def parseIntJS (s : String) : Option Int :=
  let cs := s.toList.dropWhile (fun c => c.isWhitespace)
  match cs with
  | '-' :: rest => (digitsValue rest).map (fun n => -(n : Int))
  | '+' :: rest => (digitsValue rest).map (fun n => (n : Int))
  | _ => (digitsValue cs).map (fun n => (n : Int))

/-- The `since` argument of `getMergedPullRequests`: a PR number or a
string reference. -/
inductive SinceRef where
  | num (n : Nat)
  | str (s : String)
deriving DecidableEq

/-- `parseInt(since)`: a number argument stringifies and parses back to
itself; a string argument goes through `parseIntJS`. -/
def parseIntOfSince : SinceRef → Option Int
  | SinceRef.num n => some (n : Int)
  | SinceRef.str s => parseIntJS s

/-- The query-string computation of `getMergedPullRequests` (lines 49-55).
`jsDateParse` is the host's `Date` parser (`none` models an Invalid Date)
and `jsToISO` its ISO formatting of a valid timestamp.  In the source,
`new Date(since) || fallbackDate` never takes the fallback because a Date
object is always truthy, so an unparseable reference reaches
`sinceDate.toISOString()`, which throws a RangeError on an Invalid Date. -/
def buildPullsQuery (jsDateParse : String → Option Int) (jsToISO : Int → String)
    (since : SinceRef) : Except JSError String :=
  match parseIntOfSince since with
  | some _ => Except.ok "?base=master&state=closed&sort=updated&direction=desc"
  | none =>
    match since with
    | SinceRef.num _ => Except.ok "?base=master&state=closed&sort=updated&direction=desc"
    | SinceRef.str s =>
      match jsDateParse s with
      | some ms =>
        Except.ok ("?base=master&state=closed&sort=updated&direction=desc&since=" ++ jsToISO ms)
      | none => Except.error JSError.invalidDateToISOString

/-- Model of `getMergedPullRequests` (lines 43-87): build the query (which
can throw before any request), issue one GET, exit on a non-ok response,
filter to merged PRs, and when the reference is a number keep only PRs
with strictly larger numbers. -/
def getMergedPullRequests (jsDateParse : String → Option Int) (jsToISO : Int → String)
    (owner repoName : String) (since : SinceRef) (resp : HttpResp)
    (prs : List PullRequest) : List Event × Outcome (List PullRequest) :=
  match buildPullsQuery jsDateParse jsToISO since with
  | Except.error er => ([], Outcome.threw er)
  | Except.ok query =>
    let url := apiBase owner repoName ++ "/pulls" ++ query
    if !resp.ok then ([Event.httpGet url], Outcome.exit 1)
    else
      let mergedPRs := prs.filter (fun pr => pr.merged_at.isSome)
      match since with
      | SinceRef.num n => ([Event.httpGet url], Outcome.ok (mergedPRs.filter (fun pr => n < pr.number)))
      | SinceRef.str _ => ([Event.httpGet url], Outcome.ok mergedPRs)

/-- The effect of an `Added`/`Modified` `syncChange` on the filesystem. -/
def amStep (rootDir tempDir pkg : SPath) (fs : FS) (c : ChangeEntry) : FS :=
  let fs1 := fs.mkdirp (tempDir ++ pkg ++ c.path).dropLast
  match fs1.read (rootDir ++ c.path) with
  | some v => fs1.writeFile (tempDir ++ pkg ++ c.path) v
  | none => fs1

/-- The filesystem after replaying a list of `Added`/`Modified` changes. -/
def amFold (rootDir tempDir pkg : SPath) (fs : FS) (cs : List ChangeEntry) : FS :=
  cs.foldl (amStep rootDir tempDir pkg) fs

/-- A pure write (`none` models a copy skipped because the source is
missing). -/
def applyWrite (l : List (SPath × String)) (w : SPath × Option String) :
    List (SPath × String) :=
  match w.2 with
  | some v => writeEntry l w.1 v
  | none => l

def applyWrites (l : List (SPath × String)) (ws : List (SPath × Option String)) :
    List (SPath × String) :=
  ws.foldl applyWrite l

/-- The last effective write to `p` in `ws`. -/
def lastWrite (ws : List (SPath × Option String)) (p : SPath) :
    Option (SPath × Option String) :=
  ws.reverse.find? (fun w => decide (w.1 = p) && w.2.isSome)

/-! Basic lemmas about the filesystem model. -/

lemma findEntry_removeEntry_self (l : List (SPath × String)) (p : SPath) :
    findEntry (removeEntry l p) p = none := by
  induction l with
  | nil => simp [removeEntry, findEntry]
  | cons e rest ih =>
    by_cases h : e.1 = p
    · simp [removeEntry, h, ih]
    · simp [removeEntry, findEntry, h, ih]

lemma findEntry_removeEntry_ne (l : List (SPath × String)) (p q : SPath) (h : q ≠ p) :
    findEntry (removeEntry l p) q = findEntry l q := by
  induction l with
  | nil => simp [removeEntry]
  | cons e rest ih =>
    by_cases he : e.1 = p
    · have hne : e.1 ≠ q := by rw [he]; exact Ne.symm h
      simp only [removeEntry, findEntry, if_pos he, if_neg hne, ih]
    · by_cases heq : e.1 = q
      · simp only [removeEntry, findEntry, if_neg he, if_pos heq]
      · simp only [removeEntry, findEntry, if_neg he, if_neg heq, ih]

lemma findEntry_writeEntry_self (l : List (SPath × String)) (p : SPath) (v : String) :
    findEntry (writeEntry l p v) p = some v := by
  simp [writeEntry, findEntry]

lemma findEntry_writeEntry_ne (l : List (SPath × String)) (p q : SPath) (v : String)
    (h : q ≠ p) : findEntry (writeEntry l p v) q = findEntry l q := by
  have : p ≠ q := fun hq => h hq.symm
  simp [writeEntry, findEntry, this, findEntry_removeEntry_ne l p q h]

lemma FS.files_mkdirp (fs : FS) (d : SPath) : (fs.mkdirp d).files = fs.files := rfl

lemma FS.read_mkdirp (fs : FS) (d p : SPath) : (fs.mkdirp d).read p = fs.read p := rfl

lemma FS.read_writeFile_self (fs : FS) (p : SPath) (v : String) :
    (fs.writeFile p v).read p = some v := by
  simp [FS.read, FS.writeFile, findEntry_writeEntry_self]

lemma FS.read_writeFile_ne (fs : FS) (p q : SPath) (v : String) (h : q ≠ p) :
    (fs.writeFile p v).read q = fs.read q := by
  simp [FS.read, FS.writeFile, findEntry_writeEntry_ne _ _ _ _ h]

lemma FS.read_removeFile_self (fs : FS) (p : SPath) :
    (fs.removeFile p).read p = none := by
  simp [FS.read, FS.removeFile, findEntry_removeEntry_self]

lemma FS.read_removeFile_ne (fs : FS) (p q : SPath) (h : q ≠ p) :
    (fs.removeFile p).read q = fs.read q := by
  simp [FS.read, FS.removeFile, findEntry_removeEntry_ne _ _ _ h]

/-- C2: for every `Added` entry with path `p` whose source file exists with
content `v`, after `syncChange` the file at the translated location
`tempDir ++ pkg ++ p` (monorepoRoot/packageLocation/p) exists and contains
exactly `v`. -/
theorem syncChange_added_copies (rootDir tempDir pkg : SPath) (fs : FS) (p : SPath) (v : String)
    (hsrc : fs.read (rootDir ++ p) = some v) :
    ∃ fs' evs,
      syncChange rootDir tempDir pkg fs ⟨ChangeStatus.added, p, none⟩ = Except.ok (fs', evs) ∧
      fs'.read (tempDir ++ pkg ++ p) = some v := by
  refine ⟨(fs.mkdirp (tempDir ++ pkg ++ p).dropLast).writeFile (tempDir ++ pkg ++ p) v,
    [Event.fsMkdirp (tempDir ++ pkg ++ p).dropLast,
      Event.fsCp (rootDir ++ p) (tempDir ++ pkg ++ p)], ?_, ?_⟩
  · unfold syncChange
    simp only [FS.read_mkdirp, hsrc]
  · exact FS.read_writeFile_self _ _ _

/-- C2 witness: the spec's concrete instance, with `packageLocation =
"apps/server"`, path `a/b.txt` and source content `"hello"`. -/
theorem syncChange_added_copies_witness :
    (FS.mk [(["src", "a", "b.txt"], "hello")] []).read (["src"] ++ ["a", "b.txt"]) = some "hello" ∧
    ∃ fs' evs,
      syncChange ["src"] ["mono"] ["apps", "server"] (FS.mk [(["src", "a", "b.txt"], "hello")] [])
        ⟨ChangeStatus.added, ["a", "b.txt"], none⟩ = Except.ok (fs', evs) ∧
      fs'.read (["mono"] ++ ["apps", "server"] ++ ["a", "b.txt"]) = some "hello" :=
  ⟨by decide, syncChange_added_copies ["src"] ["mono"] ["apps", "server"]
    (FS.mk [(["src", "a", "b.txt"], "hello")] []) ["a", "b.txt"] "hello" (by decide)⟩

/-- C5: a descriptor whose status string is none of added/modified/removed/
renamed is normalized to the `unknown` sentinel, and `syncChange` performs no
filesystem mutation (and no effect at all) for such an entry. -/
theorem unknown_status_noop (f : GhFile)
    (h1 : f.status ≠ "added") (h2 : f.status ≠ "modified")
    (h3 : f.status ≠ "removed") (h4 : f.status ≠ "renamed") :
    (mkChangeEntry f).status = ChangeStatus.unknown ∧
    ∀ (rootDir tempDir pkg : SPath) (fs : FS),
      syncChange rootDir tempDir pkg fs (mkChangeEntry f) = Except.ok (fs, []) := by
  have hn : normalizeStatus f.status = ChangeStatus.unknown := by
    unfold normalizeStatus
    simp [h1, h2, h3, h4]
  have hst : (mkChangeEntry f).status = ChangeStatus.unknown := by
    unfold mkChangeEntry
    simp [hn]
  refine ⟨hst, ?_⟩
  intro rootDir tempDir pkg fs
  unfold syncChange
  rw [hst]

/-- C5 witness: the GitHub status string "changed" is unrecognized. -/
theorem unknown_status_noop_witness :
    ((("changed" : String) ≠ "added") ∧ (("changed" : String) ≠ "modified") ∧
      (("changed" : String) ≠ "removed") ∧ (("changed" : String) ≠ "renamed")) ∧
    ((mkChangeEntry ⟨"changed", ["x"], none⟩).status = ChangeStatus.unknown ∧
      ∀ (rootDir tempDir pkg : SPath) (fs : FS),
        syncChange rootDir tempDir pkg fs (mkChangeEntry ⟨"changed", ["x"], none⟩) =
          Except.ok (fs, [])) :=
  ⟨⟨by decide, by decide, by decide, by decide⟩,
    unknown_status_noop ⟨"changed", ["x"], none⟩ (by decide) (by decide) (by decide) (by decide)⟩

/-- C6: an invocation of `sync` missing any one required configuration value
(PR number, GH_TOKEN, MONOREPO_PACKAGE_LOCATION, SOURCE_REPO_NAME) terminates
with exit status 1 and an empty effect trace: no network request and no
filesystem mutation happens. -/
theorem sync_missing_config_exits (rootDir tempDir : SPath) (argv2 : Option String) (env : Env)
    (cloneOk : Bool) (detailsResp : HttpResp) (prDetails : PullRequest)
    (w : SyncWorld) (fs0 : FS) (branchSuffix : String)
    (hmiss : truthy (if truthy argv2 then argv2 else env.prNumberEnv) = false ∨
      truthy env.ghToken = false ∨ truthy env.packageLocation = false ∨
      truthy env.sourceRepoName = false) :
    sync rootDir tempDir argv2 env cloneOk detailsResp prDetails w fs0 branchSuffix =
      ([], Outcome.exit 1) := by
  unfold sync
  rcases hmiss with h | h | h | h
  · simp [h]
  · cases h1 : truthy (if truthy argv2 then argv2 else env.prNumberEnv) <;> simp [h1, h]
  · cases h1 : truthy (if truthy argv2 then argv2 else env.prNumberEnv) <;>
      cases h2 : truthy env.ghToken <;> simp [h1, h2, h]
  · cases h1 : truthy (if truthy argv2 then argv2 else env.prNumberEnv) <;>
      cases h2 : truthy env.ghToken <;>
      cases h3 : truthy env.packageLocation <;> simp [h1, h2, h3, h]

/-- C6 witness: GH_TOKEN unset, everything else present. -/
theorem sync_missing_config_exits_witness :
    (truthy (if truthy (some "42") then some "42" else none) = false ∨
      truthy (Env.mk none (some "apps/formio-server") (some "formio-server") none none).ghToken = false ∨
      truthy (Env.mk none (some "apps/formio-server") (some "formio-server") none none).packageLocation = false ∨
      truthy (Env.mk none (some "apps/formio-server") (some "formio-server") none none).sourceRepoName = false) ∧
    sync ["root"] ["tmp"] (some "42")
      (Env.mk none (some "apps/formio-server") (some "formio-server") none none)
      true (HttpResp.mk true 200 "OK" "") (PullRequest.mk 1 "t" "u" none (PRUser.mk "a" none none) none)
      (SyncWorld.mk true (HttpResp.mk true 200 "OK" "") [] "" true true (HttpResp.mk true 201 "Created" "") "u")
      (FS.mk [] []) "123456" = ([], Outcome.exit 1) :=
  ⟨Or.inr (Or.inl (by decide)),
    sync_missing_config_exits ["root"] ["tmp"] (some "42")
      (Env.mk none (some "apps/formio-server") (some "formio-server") none none)
      true (HttpResp.mk true 200 "OK" "") (PullRequest.mk 1 "t" "u" none (PRUser.mk "a" none none) none)
      (SyncWorld.mk true (HttpResp.mk true 200 "OK" "") [] "" true true (HttpResp.mk true 201 "Created" "") "u")
      (FS.mk [] []) "123456" (Or.inr (Or.inl (by decide)))⟩

/-- C9: with a PR-number lower bound, every pull request returned by
`getMergedPullRequests` is merged (`merged_at` non-null) and has a PR number
strictly greater than the bound. -/
theorem getMergedPullRequests_number_bound (jsDateParse : String → Option Int)
    (jsToISO : Int → String) (owner repoName : String) (n : Nat) (resp : HttpResp)
    (prs : List PullRequest) (hok : resp.ok = true) :
    ∃ url l,
      getMergedPullRequests jsDateParse jsToISO owner repoName (SinceRef.num n) resp prs =
        ([Event.httpGet url], Outcome.ok l) ∧
      ∀ pr ∈ l, pr.merged_at.isSome = true ∧ n < pr.number := by
  refine ⟨apiBase owner repoName ++ "/pulls" ++ "?base=master&state=closed&sort=updated&direction=desc",
    (prs.filter (fun pr => pr.merged_at.isSome)).filter (fun pr => n < pr.number), ?_, ?_⟩
  · unfold getMergedPullRequests buildPullsQuery parseIntOfSince
    simp [hok]
  · intro pr hpr
    rw [List.mem_filter] at hpr
    obtain ⟨hm, hlt⟩ := hpr
    rw [List.mem_filter] at hm
    exact ⟨hm.2, by simpa using hlt⟩

/-- C9 witness: bound 5, one merged PR numbered 7. -/
theorem getMergedPullRequests_number_bound_witness :
    (HttpResp.mk true 200 "OK" "").ok = true ∧
    ∃ url l,
      getMergedPullRequests (fun _ => none) (fun _ => "") "formio" "formio-server"
        (SinceRef.num 5) (HttpResp.mk true 200 "OK" "")
        [PullRequest.mk 7 "t" "u" none (PRUser.mk "a" none none) (some "2024-01-01")] =
        ([Event.httpGet url], Outcome.ok l) ∧
      ∀ pr ∈ l, pr.merged_at.isSome = true ∧ 5 < pr.number :=
  ⟨rfl, getMergedPullRequests_number_bound (fun _ => none) (fun _ => "") "formio" "formio-server"
    5 (HttpResp.mk true 200 "OK" "")
    [PullRequest.mk 7 "t" "u" none (PRUser.mk "a" none none) (some "2024-01-01")] rfl⟩

/-- C10: a reference string that neither parses as an integer nor as a date
makes `getMergedPullRequests` throw (the `toISOString` call on an Invalid
Date) before issuing any HTTP request; the 7-days-ago fallback is never
taken. -/
theorem getMergedPullRequests_invalid_reference_throws (jsDateParse : String → Option Int)
    (jsToISO : Int → String) (owner repoName : String) (s : String) (resp : HttpResp)
    (prs : List PullRequest)
    (hint : parseIntJS s = none) (hdate : jsDateParse s = none) :
    getMergedPullRequests jsDateParse jsToISO owner repoName (SinceRef.str s) resp prs =
      ([], Outcome.threw JSError.invalidDateToISOString) := by
  unfold getMergedPullRequests buildPullsQuery parseIntOfSince
  simp [hint, hdate]

/-- C10 witness: the string "last-week" is neither an integer nor (for the
given host date parser) a date. -/
theorem getMergedPullRequests_invalid_reference_throws_witness :
    (parseIntJS "last-week" = none ∧ (fun (_ : String) => (none : Option Int)) "last-week" = none) ∧
    getMergedPullRequests (fun _ => none) (fun _ => "") "formio" "formio-server"
      (SinceRef.str "last-week") (HttpResp.mk true 200 "OK" "") [] =
      ([], Outcome.threw JSError.invalidDateToISOString) :=
  ⟨⟨by decide, rfl⟩,
    getMergedPullRequests_invalid_reference_throws (fun _ => none) (fun _ => "")
      "formio" "formio-server" "last-week" (HttpResp.mk true 200 "OK" "") [] (by decide) rfl⟩

/-- C7 counterexample: an `Added` entry whose source file is missing is
skipped with a warning, yet the target filesystem is NOT left unmodified —
the directory chain is created unconditionally, before the existence check. -/
theorem syncChange_skipped_entry_mutates_target :
    (FS.mk [] []).read (["root"] ++ ["a", "b.txt"]) = none ∧
    ∃ fs' evs,
      syncChange ["root"] ["tmp"] ["pkg"] (FS.mk [] [])
        ⟨ChangeStatus.added, ["a", "b.txt"], none⟩ = Except.ok (fs', evs) ∧
      Event.logWarnMissingSource (["root"] ++ ["a", "b.txt"]) ∈ evs ∧
      fs' ≠ FS.mk [] [] := by
  refine ⟨by decide, FS.mk [] [["tmp"], ["tmp", "pkg"], ["tmp", "pkg", "a"]],
    [Event.fsMkdirp ["tmp", "pkg", "a"],
      Event.logWarnMissingSource ["root", "a", "b.txt"]], ?_, ?_, ?_⟩
  · rfl
  · decide
  · decide

/-- C7 (amended): for an `Added`/`Modified` entry whose source file does not
exist, `syncChange` skips the copy with a warning and does not fail the run;
however the directory chain of the translated path is created
unconditionally (before the source-existence check), so the skipped entry
may still create directories — but it creates or modifies no file. -/
theorem syncChange_missing_source_skips (rootDir tempDir pkg : SPath) (fs : FS)
    (c : ChangeEntry)
    (hst : c.status = ChangeStatus.added ∨ c.status = ChangeStatus.modified)
    (hmiss : fs.read (rootDir ++ c.path) = none) :
    syncChange rootDir tempDir pkg fs c =
      Except.ok (fs.mkdirp (tempDir ++ pkg ++ c.path).dropLast,
        [Event.fsMkdirp (tempDir ++ pkg ++ c.path).dropLast,
          Event.logWarnMissingSource (rootDir ++ c.path)]) ∧
    (fs.mkdirp (tempDir ++ pkg ++ c.path).dropLast).files = fs.files := by
  refine ⟨?_, rfl⟩
  obtain ⟨st, pa, pr⟩ := c
  rcases hst with h | h <;>
    (cases h; unfold syncChange; simp only [FS.read_mkdirp]; rw [hmiss])

/-- C7 (amended) witness. -/
theorem syncChange_missing_source_skips_witness :
    ((ChangeEntry.mk ChangeStatus.added ["a", "b.txt"] none).status = ChangeStatus.added ∨
      (ChangeEntry.mk ChangeStatus.added ["a", "b.txt"] none).status = ChangeStatus.modified) ∧
    (FS.mk [] []).read (["root"] ++ (ChangeEntry.mk ChangeStatus.added ["a", "b.txt"] none).path) = none ∧
    (syncChange ["root"] ["tmp"] ["pkg"] (FS.mk [] [])
        (ChangeEntry.mk ChangeStatus.added ["a", "b.txt"] none) =
      Except.ok ((FS.mk [] []).mkdirp
          (["tmp"] ++ ["pkg"] ++ (ChangeEntry.mk ChangeStatus.added ["a", "b.txt"] none).path).dropLast,
        [Event.fsMkdirp (["tmp"] ++ ["pkg"] ++ (ChangeEntry.mk ChangeStatus.added ["a", "b.txt"] none).path).dropLast,
          Event.logWarnMissingSource (["root"] ++ (ChangeEntry.mk ChangeStatus.added ["a", "b.txt"] none).path)]) ∧
      ((FS.mk [] []).mkdirp
          (["tmp"] ++ ["pkg"] ++ (ChangeEntry.mk ChangeStatus.added ["a", "b.txt"] none).path).dropLast).files =
        (FS.mk [] []).files) :=
  ⟨Or.inl rfl, by decide,
    syncChange_missing_source_skips ["root"] ["tmp"] ["pkg"] (FS.mk [] [])
      (ChangeEntry.mk ChangeStatus.added ["a", "b.txt"] none) (Or.inl rfl) (by decide)⟩

/-- C4: for a `Renamed` entry (previous path present and distinct from the
new path, translated previous path distinct from the source path), after
`syncChange` no file exists at the translated previous path; when the source
file at the new path exists, the translated new path holds exactly its
content; when it is missing, only the deletion half is performed and a
warning is logged. -/
theorem syncChange_renamed_spec (rootDir tempDir pkg : SPath) (fs : FS) (c : ChangeEntry)
    (pp : SPath)
    (hst : c.status = ChangeStatus.renamed) (hpp : c.previous_path = some pp)
    (hne : c.path ≠ pp)
    (hdisj : rootDir ++ c.path ≠ tempDir ++ pkg ++ pp) :
    ∃ fs' evs,
      syncChange rootDir tempDir pkg fs c = Except.ok (fs', evs) ∧
      fs'.read (tempDir ++ pkg ++ pp) = none ∧
      (∀ v, fs.read (rootDir ++ c.path) = some v →
        fs'.read (tempDir ++ pkg ++ c.path) = some v) ∧
      (fs.read (rootDir ++ c.path) = none →
        fs' = (if fs.existsSync (tempDir ++ pkg ++ pp) then
            fs.removeFile (tempDir ++ pkg ++ pp) else fs) ∧
        Event.logWarnMissingSource (rootDir ++ c.path) ∈ evs) := by
  obtain ⟨st, pa, pr⟩ := c
  cases hst
  cases hpp
  simp only at hne hdisj
  have htgt : tempDir ++ pkg ++ pa ≠ tempDir ++ pkg ++ pp := by
    intro h
    exact hne (List.append_cancel_left h)
  -- the state after the deletion half
  set fs1 : FS := if fs.existsSync (tempDir ++ pkg ++ pp) then
    fs.removeFile (tempDir ++ pkg ++ pp) else fs with hfs1
  have hprev : fs1.read (tempDir ++ pkg ++ pp) = none := by
    rw [hfs1]
    by_cases hex : fs.existsSync (tempDir ++ pkg ++ pp)
    · rw [if_pos hex]
      exact FS.read_removeFile_self fs _
    · rw [if_neg hex]
      unfold FS.existsSync at hex
      exact Option.not_isSome_iff_eq_none.mp (by simpa using hex)
  have hsrc1 : fs1.read (rootDir ++ pa) = fs.read (rootDir ++ pa) := by
    rw [hfs1]
    by_cases hex : fs.existsSync (tempDir ++ pkg ++ pp)
    · rw [if_pos hex]
      exact FS.read_removeFile_ne fs _ _ hdisj
    · rw [if_neg hex]
  cases hread : fs.read (rootDir ++ pa) with
  | some v =>
    refine ⟨(fs1.mkdirp (tempDir ++ pkg ++ pa).dropLast).writeFile (tempDir ++ pkg ++ pa) v,
      (if fs.existsSync (tempDir ++ pkg ++ pp) then [Event.fsRm (tempDir ++ pkg ++ pp)] else [])
        ++ [Event.fsMkdirp (tempDir ++ pkg ++ pa).dropLast,
          Event.fsCp (rootDir ++ pa) (tempDir ++ pkg ++ pa)], ?_, ?_, ?_, ?_⟩
    · unfold syncChange
      simp only []
      rw [← hfs1, show fs1.read (rootDir ++ pa) = some v from hsrc1.trans hread]
    · rw [FS.read_writeFile_ne _ _ _ _ (fun h => htgt h.symm), FS.read_mkdirp]
      exact hprev
    · intro v' hv'
      cases Option.some.inj hv'
      exact FS.read_writeFile_self _ _ _
    · intro hnone
      exact Option.noConfusion hnone
  | none =>
    refine ⟨fs1,
      (if fs.existsSync (tempDir ++ pkg ++ pp) then [Event.fsRm (tempDir ++ pkg ++ pp)] else [])
        ++ [Event.logWarnMissingSource (rootDir ++ pa)], ?_, ?_, ?_, ?_⟩
    · unfold syncChange
      simp only []
      rw [← hfs1, show fs1.read (rootDir ++ pa) = none from hsrc1.trans hread]
    · exact hprev
    · intro v' hv'
      exact Option.noConfusion hv'
    · intro _
      refine ⟨hfs1, ?_⟩
      simp

/-- C4 witness: rename of `a/old.txt` to `a/new.txt` with the new-path
source file present. -/
theorem syncChange_renamed_spec_witness :
    ((ChangeEntry.mk ChangeStatus.renamed ["a", "new.txt"] (some ["a", "old.txt"])).status =
        ChangeStatus.renamed ∧
      (ChangeEntry.mk ChangeStatus.renamed ["a", "new.txt"] (some ["a", "old.txt"])).previous_path =
        some ["a", "old.txt"] ∧
      (ChangeEntry.mk ChangeStatus.renamed ["a", "new.txt"] (some ["a", "old.txt"])).path ≠
        ["a", "old.txt"] ∧
      ["root"] ++ (ChangeEntry.mk ChangeStatus.renamed ["a", "new.txt"] (some ["a", "old.txt"])).path ≠
        ["tmp"] ++ ["pkg"] ++ ["a", "old.txt"]) ∧
    ∃ fs' evs,
      syncChange ["root"] ["tmp"] ["pkg"]
          (FS.mk [(["root", "a", "new.txt"], "v1"), (["tmp", "pkg", "a", "old.txt"], "v0")] [])
          (ChangeEntry.mk ChangeStatus.renamed ["a", "new.txt"] (some ["a", "old.txt"])) =
        Except.ok (fs', evs) ∧
      fs'.read (["tmp"] ++ ["pkg"] ++ ["a", "old.txt"]) = none ∧
      (∀ v, (FS.mk [(["root", "a", "new.txt"], "v1"), (["tmp", "pkg", "a", "old.txt"], "v0")] []).read
          (["root"] ++ (ChangeEntry.mk ChangeStatus.renamed ["a", "new.txt"] (some ["a", "old.txt"])).path) = some v →
        fs'.read (["tmp"] ++ ["pkg"] ++ (ChangeEntry.mk ChangeStatus.renamed ["a", "new.txt"] (some ["a", "old.txt"])).path) = some v) ∧
      ((FS.mk [(["root", "a", "new.txt"], "v1"), (["tmp", "pkg", "a", "old.txt"], "v0")] []).read
          (["root"] ++ (ChangeEntry.mk ChangeStatus.renamed ["a", "new.txt"] (some ["a", "old.txt"])).path) = none →
        fs' = (if (FS.mk [(["root", "a", "new.txt"], "v1"), (["tmp", "pkg", "a", "old.txt"], "v0")] []).existsSync
            (["tmp"] ++ ["pkg"] ++ ["a", "old.txt"]) then
            (FS.mk [(["root", "a", "new.txt"], "v1"), (["tmp", "pkg", "a", "old.txt"], "v0")] []).removeFile
              (["tmp"] ++ ["pkg"] ++ ["a", "old.txt"]) else
            (FS.mk [(["root", "a", "new.txt"], "v1"), (["tmp", "pkg", "a", "old.txt"], "v0")] [])) ∧
        Event.logWarnMissingSource
          (["root"] ++ (ChangeEntry.mk ChangeStatus.renamed ["a", "new.txt"] (some ["a", "old.txt"])).path) ∈ evs) :=
  ⟨⟨rfl, rfl, by decide, by decide⟩,
    syncChange_renamed_spec ["root"] ["tmp"] ["pkg"]
      (FS.mk [(["root", "a", "new.txt"], "v1"), (["tmp", "pkg", "a", "old.txt"], "v0")] [])
      (ChangeEntry.mk ChangeStatus.renamed ["a", "new.txt"] (some ["a", "old.txt"]))
      ["a", "old.txt"] rfl rfl (by decide) (by decide)⟩

lemma syncChange_am (rootDir tempDir pkg : SPath) (fs : FS) (c : ChangeEntry)
    (hst : c.status = ChangeStatus.added ∨ c.status = ChangeStatus.modified) :
    ∃ evs, syncChange rootDir tempDir pkg fs c =
      Except.ok (amStep rootDir tempDir pkg fs c, evs) := by
  obtain ⟨st, pa, pr⟩ := c
  rcases hst with h | h <;> cases h <;>
    ( unfold syncChange amStep
      dsimp only
      cases hr : (fs.mkdirp ((tempDir ++ pkg ++ pa).dropLast)).read (rootDir ++ pa) with
      | some v => exact ⟨_, rfl⟩
      | none => exact ⟨_, rfl⟩ )

lemma replayAll_amFold (rootDir tempDir pkg : SPath) :
    ∀ (cs : List ChangeEntry) (fs : FS) (acc : List Event),
      (∀ c ∈ cs, c.status = ChangeStatus.added ∨ c.status = ChangeStatus.modified) →
      ∃ evs, replayAll rootDir tempDir pkg fs acc cs =
        Except.ok (amFold rootDir tempDir pkg fs cs, evs) := by
  intro cs
  induction cs with
  | nil => intro fs acc _; exact ⟨acc, rfl⟩
  | cons c cs ih =>
    intro fs acc hAM
    obtain ⟨evs1, h1⟩ := syncChange_am rootDir tempDir pkg fs c (hAM c (by simp))
    obtain ⟨evs2, h2⟩ := ih (amStep rootDir tempDir pkg fs c) (acc ++ evs1)
      (fun c' hc' => hAM c' (by simp [hc']))
    refine ⟨evs2, ?_⟩
    unfold replayAll
    rw [h1]
    exact h2

lemma amStep_read_ne (rootDir tempDir pkg : SPath) (fs : FS) (c : ChangeEntry) (q : SPath)
    (hq : q ≠ tempDir ++ pkg ++ c.path) :
    (amStep rootDir tempDir pkg fs c).read q = fs.read q := by
  unfold amStep
  dsimp only
  cases hr : (fs.mkdirp ((tempDir ++ pkg ++ c.path).dropLast)).read (rootDir ++ c.path) with
  | some v => rw [FS.read_writeFile_ne _ _ _ _ hq, FS.read_mkdirp]
  | none => rw [FS.read_mkdirp]

lemma applyWrites_read (ws : List (SPath × Option String)) (l : List (SPath × String)) (p : SPath) :
    findEntry (applyWrites l ws) p =
      (match lastWrite ws p with
       | some w => w.2
       | none => findEntry l p) := by
  induction ws using List.reverseRecOn generalizing l with
  | nil => rfl
  | append_singleton ws w ih =>
    have happ : applyWrites l (ws ++ [w]) = applyWrite (applyWrites l ws) w := by
      unfold applyWrites
      rw [List.foldl_append]
      rfl
    by_cases hw : (decide (w.1 = p) && w.2.isSome) = true
    · have hlast : lastWrite (ws ++ [w]) p = some w := by
        unfold lastWrite
        rw [List.reverse_append]
        exact List.find?_cons_of_pos _ hw
      rw [happ, hlast]
      obtain ⟨wp, wv⟩ := w
      rw [Bool.and_eq_true, decide_eq_true_eq] at hw
      obtain ⟨rfl, hsome⟩ := hw
      cases wv with
      | some v =>
        show findEntry (writeEntry (applyWrites l ws) wp v) wp = some v
        exact findEntry_writeEntry_self _ _ _
      | none => exact absurd hsome (by simp)
    · have hlast : lastWrite (ws ++ [w]) p = lastWrite ws p := by
        unfold lastWrite
        rw [List.reverse_append]
        show List.find? _ (w :: ws.reverse) = _
        rw [List.find?_cons_of_neg _ (by simpa using hw)]
      rw [happ, hlast]
      have hstep : findEntry (applyWrite (applyWrites l ws) w) p =
          findEntry (applyWrites l ws) p := by
        obtain ⟨wp, wv⟩ := w
        rw [Bool.and_eq_true, decide_eq_true_eq] at hw
        cases wv with
        | some v =>
          have hne : wp ≠ p := by
            intro h
            exact hw ⟨h, by simp⟩
          show findEntry (writeEntry (applyWrites l ws) wp v) p = _
          exact findEntry_writeEntry_ne _ _ _ _ (Ne.symm hne)
        | none => rfl
      rw [hstep, ih]

lemma amFold_files (rootDir tempDir pkg : SPath) (V : ChangeEntry → Option String) :
    ∀ (cs : List ChangeEntry) (fs : FS),
      (∀ c ∈ cs, fs.read (rootDir ++ c.path) = V c) →
      (∀ c ∈ cs, ∀ c' ∈ cs, tempDir ++ pkg ++ c.path ≠ rootDir ++ c'.path) →
      (amFold rootDir tempDir pkg fs cs).files =
        applyWrites fs.files (cs.map (fun c => (tempDir ++ pkg ++ c.path, V c))) := by
  intro cs
  induction cs with
  | nil => intro fs _ _; rfl
  | cons c cs ih =>
    intro fs hV hdisj
    have hVc : fs.read (rootDir ++ c.path) = V c := hV c (by simp)
    have hstep_files : (amStep rootDir tempDir pkg fs c).files =
        applyWrite fs.files (tempDir ++ pkg ++ c.path, V c) := by
      unfold amStep applyWrite
      dsimp only
      rw [FS.read_mkdirp, hVc]
      cases V c with
      | some v => rfl
      | none => rfl
    have hread_step : ∀ c' ∈ cs,
        (amStep rootDir tempDir pkg fs c).read (rootDir ++ c'.path) = V c' := by
      intro c' hc'
      have hne : rootDir ++ c'.path ≠ tempDir ++ pkg ++ c.path := by
        intro h
        exact hdisj c (by simp) c' (by simp [hc']) h.symm
      rw [amStep_read_ne rootDir tempDir pkg fs c _ hne]
      exact hV c' (by simp [hc'])
    have hdisj' : ∀ c1 ∈ cs, ∀ c2 ∈ cs, tempDir ++ pkg ++ c1.path ≠ rootDir ++ c2.path :=
      fun c1 h1 c2 h2 => hdisj c1 (by simp [h1]) c2 (by simp [h2])
    calc (amFold rootDir tempDir pkg fs (c :: cs)).files
        = (amFold rootDir tempDir pkg (amStep rootDir tempDir pkg fs c) cs).files := rfl
      _ = applyWrites (amStep rootDir tempDir pkg fs c).files
            (cs.map (fun x => (tempDir ++ pkg ++ x.path, V x))) := ih _ hread_step hdisj'
      _ = applyWrites (applyWrite fs.files (tempDir ++ pkg ++ c.path, V c))
            (cs.map (fun x => (tempDir ++ pkg ++ x.path, V x))) := by rw [hstep_files]
      _ = applyWrites fs.files
            ((c :: cs).map (fun x => (tempDir ++ pkg ++ x.path, V x))) := rfl

lemma amFold_read_source (rootDir tempDir pkg : SPath) (cs : List ChangeEntry) (fs : FS)
    (hdisj : ∀ c ∈ cs, ∀ c' ∈ cs, tempDir ++ pkg ++ c.path ≠ rootDir ++ c'.path)
    (c0 : ChangeEntry) (hc0 : c0 ∈ cs) :
    (amFold rootDir tempDir pkg fs cs).read (rootDir ++ c0.path) =
      fs.read (rootDir ++ c0.path) := by
  have hfiles := amFold_files rootDir tempDir pkg (fun c => fs.read (rootDir ++ c.path)) cs fs
    (fun _ _ => rfl) hdisj
  have hnone : lastWrite
      (cs.map (fun c => (tempDir ++ pkg ++ c.path, fs.read (rootDir ++ c.path))))
      (rootDir ++ c0.path) = none := by
    unfold lastWrite
    rw [List.find?_eq_none]
    intro w hw
    rw [List.mem_reverse, List.mem_map] at hw
    obtain ⟨c, hc, rfl⟩ := hw
    simp only [Bool.and_eq_true, decide_eq_true_eq, not_and]
    intro heq
    exact absurd heq (hdisj c hc c0 hc0)
  show findEntry (amFold rootDir tempDir pkg fs cs).files (rootDir ++ c0.path) =
    findEntry fs.files (rootDir ++ c0.path)
  rw [hfiles, applyWrites_read, hnone]

/-- C1: replaying a change list of only `Added`/`Modified` entries whose
source files exist twice in succession against the same target root yields
the same final file contents as replaying it once (the source and target
path spaces being disjoint, as they are for the script's two roots). -/
theorem replay_twice_eq_once (rootDir tempDir pkg : SPath) (fs : FS) (cs : List ChangeEntry)
    (hAM : ∀ c ∈ cs, c.status = ChangeStatus.added ∨ c.status = ChangeStatus.modified)
    (hsrc : ∀ c ∈ cs, (fs.read (rootDir ++ c.path)).isSome = true)
    (hdisj : ∀ c ∈ cs, ∀ c' ∈ cs, tempDir ++ pkg ++ c.path ≠ rootDir ++ c'.path) :
    ∃ fs1 evs1 fs2 evs2,
      replayAll rootDir tempDir pkg fs [] cs = Except.ok (fs1, evs1) ∧
      replayAll rootDir tempDir pkg fs1 [] cs = Except.ok (fs2, evs2) ∧
      ∀ p, fs2.read p = fs1.read p := by
  obtain ⟨evs1, h1⟩ := replayAll_amFold rootDir tempDir pkg cs fs [] hAM
  obtain ⟨evs2, h2⟩ := replayAll_amFold rootDir tempDir pkg cs
    (amFold rootDir tempDir pkg fs cs) [] hAM
  refine ⟨amFold rootDir tempDir pkg fs cs, evs1,
    amFold rootDir tempDir pkg (amFold rootDir tempDir pkg fs cs) cs, evs2, h1, h2, ?_⟩
  intro p
  have hpres : ∀ c ∈ cs,
      (amFold rootDir tempDir pkg fs cs).read (rootDir ++ c.path) =
        (fun c => fs.read (rootDir ++ c.path)) c :=
    fun c hc => amFold_read_source rootDir tempDir pkg cs fs hdisj c hc
  have hf1 := amFold_files rootDir tempDir pkg (fun c => fs.read (rootDir ++ c.path)) cs fs
    (fun _ _ => rfl) hdisj
  have hf2 := amFold_files rootDir tempDir pkg (fun c => fs.read (rootDir ++ c.path)) cs
    (amFold rootDir tempDir pkg fs cs) hpres hdisj
  have hL : (amFold rootDir tempDir pkg (amFold rootDir tempDir pkg fs cs) cs).read p =
      (match lastWrite (cs.map (fun c => (tempDir ++ pkg ++ c.path, fs.read (rootDir ++ c.path)))) p with
       | some w => w.2
       | none => (amFold rootDir tempDir pkg fs cs).read p) := by
    show findEntry (amFold rootDir tempDir pkg (amFold rootDir tempDir pkg fs cs) cs).files p = _
    rw [hf2, applyWrites_read]
    rfl
  have hR : (amFold rootDir tempDir pkg fs cs).read p =
      (match lastWrite (cs.map (fun c => (tempDir ++ pkg ++ c.path, fs.read (rootDir ++ c.path)))) p with
       | some w => w.2
       | none => fs.read p) := by
    show findEntry (amFold rootDir tempDir pkg fs cs).files p = _
    rw [hf1, applyWrites_read]
    rfl
  cases hw : lastWrite (cs.map (fun c => (tempDir ++ pkg ++ c.path, fs.read (rootDir ++ c.path)))) p with
  | none =>
    rw [hw] at hL
    exact hL
  | some w =>
    rw [hw] at hL hR
    exact hL.trans hR.symm

/-- C1 witness: a single `Added` entry replayed twice. -/
theorem replay_twice_eq_once_witness :
    ((∀ c ∈ [ChangeEntry.mk ChangeStatus.added ["f"] none],
        c.status = ChangeStatus.added ∨ c.status = ChangeStatus.modified) ∧
      (∀ c ∈ [ChangeEntry.mk ChangeStatus.added ["f"] none],
        ((FS.mk [(["r", "f"], "x")] []).read (["r"] ++ c.path)).isSome = true) ∧
      (∀ c ∈ [ChangeEntry.mk ChangeStatus.added ["f"] none],
        ∀ c' ∈ [ChangeEntry.mk ChangeStatus.added ["f"] none],
          ["t"] ++ ["p"] ++ c.path ≠ ["r"] ++ c'.path)) ∧
    ∃ fs1 evs1 fs2 evs2,
      replayAll ["r"] ["t"] ["p"] (FS.mk [(["r", "f"], "x")] []) []
          [ChangeEntry.mk ChangeStatus.added ["f"] none] = Except.ok (fs1, evs1) ∧
      replayAll ["r"] ["t"] ["p"] fs1 []
          [ChangeEntry.mk ChangeStatus.added ["f"] none] = Except.ok (fs2, evs2) ∧
      ∀ p, fs2.read p = fs1.read p :=
  ⟨⟨by decide, by decide, by decide⟩,
    replay_twice_eq_once ["r"] ["t"] ["p"] (FS.mk [(["r", "f"], "x")] [])
      [ChangeEntry.mk ChangeStatus.added ["f"] none]
      (by decide) (by decide) (by decide)⟩

lemma isPublish_gitCheckout (b : String) : (Event.gitCheckout b).isPublish = false := rfl

lemma isPublish_httpGet (u : String) : (Event.httpGet u).isPublish = false := rfl

lemma isPublish_gitStatusQuery : Event.gitStatusQuery.isPublish = false := rfl

lemma isPublish_logNoChanges : Event.logNoChanges.isPublish = false := rfl

lemma isPublish_rmRfTemp : Event.rmRfTemp.isPublish = false := rfl

lemma isPublish_gitClone : Event.gitClone.isPublish = false := rfl

lemma syncChange_events_safe (rootDir tempDir pkg : SPath) (fs : FS) (c : ChangeEntry)
    (fs' : FS) (evs : List Event)
    (h : syncChange rootDir tempDir pkg fs c = Except.ok (fs', evs)) :
    evs.all (fun e => !e.isPublish) = true := by
  obtain ⟨st, pa, pr⟩ := c
  unfold syncChange at h
  dsimp only at h
  cases st
  case added =>
    cases hr : (fs.mkdirp ((tempDir ++ pkg ++ pa).dropLast)).read (rootDir ++ pa) <;>
      rw [hr] at h <;> cases h <;> simp [Event.isPublish]
  case modified =>
    cases hr : (fs.mkdirp ((tempDir ++ pkg ++ pa).dropLast)).read (rootDir ++ pa) <;>
      rw [hr] at h <;> cases h <;> simp [Event.isPublish]
  case removed =>
    by_cases hex : fs.existsSync (tempDir ++ pkg ++ pa) = true
    · rw [if_pos hex] at h
      cases h
      simp [Event.isPublish]
    · rw [if_neg hex] at h
      cases h
      simp
  case renamed =>
    cases pr with
    | none => cases h
    | some pp =>
      dsimp only at h
      by_cases hex : fs.existsSync (tempDir ++ pkg ++ pp) = true
      · rw [if_pos hex, if_pos hex] at h
        cases hr : (fs.removeFile (tempDir ++ pkg ++ pp)).read (rootDir ++ pa) <;>
          rw [hr] at h <;> cases h <;> simp [Event.isPublish]
      · rw [if_neg hex, if_neg hex] at h
        cases hr : fs.read (rootDir ++ pa) <;>
          rw [hr] at h <;> cases h <;> simp [Event.isPublish]
  case unknown =>
    cases h
    simp

lemma replayAll_events_safe (rootDir tempDir pkg : SPath) :
    ∀ (cs : List ChangeEntry) (fs : FS) (acc : List Event) (fs' : FS) (evs : List Event),
      acc.all (fun e => !e.isPublish) = true →
      replayAll rootDir tempDir pkg fs acc cs = Except.ok (fs', evs) →
      evs.all (fun e => !e.isPublish) = true := by
  intro cs
  induction cs with
  | nil =>
    intro fs acc fs' evs hacc h
    unfold replayAll at h
    cases h
    exact hacc
  | cons c cs ih =>
    intro fs acc fs' evs hacc h
    unfold replayAll at h
    cases hc : syncChange rootDir tempDir pkg fs c with
    | error e => rw [hc] at h; cases h
    | ok res =>
      rw [hc] at h
      obtain ⟨fs1, evs1⟩ := res
      refine ih fs1 (acc ++ evs1) fs' evs ?_ h
      rw [List.all_append, hacc, syncChange_events_safe rootDir tempDir pkg fs c fs1 evs1 hc]
      rfl

lemma syncPR_noop (rootDir tempDir pkg : SPath) (owner repoName : String) (w : SyncWorld)
    (fs : FS) (pr : PullRequest) (branchSuffix : String) (fsr : FS) (evr : List Event)
    (h6 : w.branchOk = true) (h7 : w.filesResp.ok = true)
    (h8 : replayAll rootDir tempDir pkg fs [] (getPRChangesList w.files) = Except.ok (fsr, evr))
    (h9 : trimString w.gitStatusOut = "") :
    ∃ e, syncPR rootDir tempDir pkg owner repoName w fs pr branchSuffix =
      (e, Outcome.ok none) ∧ e.all (fun x => !x.isPublish) = true := by
  have hsafe := replayAll_events_safe rootDir tempDir pkg (getPRChangesList w.files)
    fs [] fsr evr rfl h8
  unfold syncPR getPRChanges
  rw [h6, h7]
  simp only [Bool.not_true, Bool.false_eq_true, if_false, if_true, ite_true, ite_false]
  rw [h8]
  dsimp only
  rw [if_pos h9]
  refine ⟨_, rfl, ?_⟩
  simp only [List.all_append, List.all_cons, List.all_nil, hsafe, isPublish_gitCheckout,
    isPublish_httpGet, isPublish_gitStatusQuery, isPublish_logNoChanges, Bool.not_false,
    Bool.and_true, Bool.true_and, Bool.and_self]

/-- C3: when the staged working tree reports no modifications after all
changes are replayed (a successful run up to the status query, with empty
`git status --porcelain` output), `sync` performs no commit, no push and no
PR-creation call, and terminates reporting success. -/
theorem sync_noop_success (rootDir tempDir : SPath) (argv2 : Option String) (env : Env)
    (detailsResp : HttpResp) (prDetails : PullRequest) (w : SyncWorld) (fs0 : FS)
    (branchSuffix : String) (fsr : FS) (evr : List Event)
    (h1 : truthy (if truthy argv2 then argv2 else env.prNumberEnv) = true)
    (h2 : truthy env.ghToken = true) (h3 : truthy env.packageLocation = true)
    (h4 : truthy env.sourceRepoName = true) (h5 : detailsResp.ok = true)
    (h6 : w.branchOk = true) (h7 : w.filesResp.ok = true)
    (h8 : replayAll rootDir tempDir (pathOfString (env.packageLocation.getD "")) fs0 []
        (getPRChangesList w.files) = Except.ok (fsr, evr))
    (h9 : trimString w.gitStatusOut = "") :
    ∃ evts,
      sync rootDir tempDir argv2 env true detailsResp prDetails w fs0 branchSuffix =
        (evts, Outcome.ok ()) ∧
      evts.all (fun e => !e.isPublish) = true := by
  obtain ⟨e, hpr, hsafe⟩ := syncPR_noop rootDir tempDir
    (pathOfString (env.packageLocation.getD "")) (jsOr env.sourceRepoOwner "formio")
    (env.sourceRepoName.getD "") w fs0 prDetails branchSuffix fsr evr h6 h7 h8 h9
  unfold sync getPRDetails
  dsimp only
  rw [h1, h2, h3, h4, h5]
  simp only [Bool.not_true, Bool.false_eq_true, if_false, eq_self_iff_true, if_true]
  rw [hpr]
  dsimp only
  refine ⟨_, rfl, ?_⟩
  simp only [List.all_append, List.all_cons, List.all_nil, hsafe, isPublish_rmRfTemp,
    isPublish_gitClone, isPublish_httpGet, Bool.not_false, Bool.and_true, Bool.true_and,
    Bool.and_self]

/-- C3 witness: a PR whose change list is empty, leaving the staged tree
clean. -/
theorem sync_noop_success_witness :
    (truthy (if truthy (some "42") then some "42"
        else (Env.mk (some "tok") (some "apps/formio-server") (some "formio-server") none none).prNumberEnv) = true ∧
      trimString "" = "") ∧
    ∃ evts,
      sync ["root"] ["tmp"] (some "42")
        (Env.mk (some "tok") (some "apps/formio-server") (some "formio-server") none none)
        true (HttpResp.mk true 200 "OK" "")
        (PullRequest.mk 42 "T" "u" none (PRUser.mk "alice" none none) (some "m"))
        (SyncWorld.mk true (HttpResp.mk true 200 "OK" "") [] "" true true
          (HttpResp.mk true 201 "Created" "") "u2")
        (FS.mk [] []) "123456" = (evts, Outcome.ok ()) ∧
      evts.all (fun e => !e.isPublish) = true :=
  ⟨⟨rfl, rfl⟩,
    sync_noop_success ["root"] ["tmp"] (some "42")
      (Env.mk (some "tok") (some "apps/formio-server") (some "formio-server") none none)
      (HttpResp.mk true 200 "OK" "")
      (PullRequest.mk 42 "T" "u" none (PRUser.mk "alice" none none) (some "m"))
      (SyncWorld.mk true (HttpResp.mk true 200 "OK" "") [] "" true true
        (HttpResp.mk true 201 "Created" "") "u2")
      (FS.mk [] []) "123456" (FS.mk [] []) []
      rfl rfl rfl rfl rfl rfl rfl rfl rfl⟩

lemma syncPR_create_failed (rootDir tempDir pkg : SPath) (owner repoName : String)
    (w : SyncWorld) (fs : FS) (pr : PullRequest) (branchSuffix : String) (fsr : FS)
    (evr : List Event)
    (h6 : w.branchOk = true) (h7 : w.filesResp.ok = true)
    (h8 : replayAll rootDir tempDir pkg fs [] (getPRChangesList w.files) = Except.ok (fsr, evr))
    (h9 : ¬ trimString w.gitStatusOut = "") (h10 : w.commitOk = true) (h11 : w.pushOk = true)
    (h12 : w.createResp.ok = false) :
    ∃ pre, syncPR rootDir tempDir pkg owner repoName w fs pr branchSuffix =
      (pre ++ [Event.httpPostCreatePR monorepoPullsUrl,
        Event.logPrCreateFailed w.createResp.status w.createResp.body], Outcome.ok none) := by
  unfold syncPR getPRChanges
  rw [h6, h7]
  simp only [Bool.not_true, Bool.false_eq_true, if_false, if_true, ite_true, ite_false]
  rw [h8]
  dsimp only
  rw [if_neg h9, h10, h11, h12]
  simp only [Bool.not_true, Bool.not_false, Bool.false_eq_true, if_false, if_true,
    ite_true, ite_false]
  refine ⟨[Event.gitCheckout ("sync-pr-" ++ toString pr.number ++ "-" ++ branchSuffix)] ++
      [Event.httpGet (apiBase owner repoName ++ "/pulls/" ++ toString pr.number ++ "/files")] ++
      evr ++ [Event.gitStatusQuery] ++
      [Event.gitConfigUserName (jsOr pr.user.name pr.user.login),
        Event.gitConfigUserEmail (jsOr pr.user.email (pr.user.login ++ "@users.noreply.github.com")),
        Event.gitAddAll, Event.gitCommit (commitMessageFor pr)] ++
      [Event.gitPush ("sync-pr-" ++ toString pr.number ++ "-" ++ branchSuffix)], ?_⟩
  simp [List.append_assoc]

/-- C8: when commit and push succeed but the PR-creation call returns a
non-ok response, the failure is logged with the response status and body,
nothing further runs after that log (in particular no rollback git
commands), and the run does not terminate with a non-zero exit status. -/
theorem sync_pr_create_failure_no_rollback (rootDir tempDir : SPath) (argv2 : Option String)
    (env : Env) (detailsResp : HttpResp) (prDetails : PullRequest) (w : SyncWorld) (fs0 : FS)
    (branchSuffix : String) (fsr : FS) (evr : List Event)
    (h1 : truthy (if truthy argv2 then argv2 else env.prNumberEnv) = true)
    (h2 : truthy env.ghToken = true) (h3 : truthy env.packageLocation = true)
    (h4 : truthy env.sourceRepoName = true) (h5 : detailsResp.ok = true)
    (h6 : w.branchOk = true) (h7 : w.filesResp.ok = true)
    (h8 : replayAll rootDir tempDir (pathOfString (env.packageLocation.getD "")) fs0 []
        (getPRChangesList w.files) = Except.ok (fsr, evr))
    (h9 : ¬ trimString w.gitStatusOut = "") (h10 : w.commitOk = true) (h11 : w.pushOk = true)
    (h12 : w.createResp.ok = false) :
    ∃ pre,
      sync rootDir tempDir argv2 env true detailsResp prDetails w fs0 branchSuffix =
        (pre ++ [Event.httpPostCreatePR monorepoPullsUrl,
          Event.logPrCreateFailed w.createResp.status w.createResp.body], Outcome.ok ()) := by
  obtain ⟨pre, hpr⟩ := syncPR_create_failed rootDir tempDir
    (pathOfString (env.packageLocation.getD "")) (jsOr env.sourceRepoOwner "formio")
    (env.sourceRepoName.getD "") w fs0 prDetails branchSuffix fsr evr
    h6 h7 h8 h9 h10 h11 h12
  unfold sync getPRDetails
  dsimp only
  rw [h1, h2, h3, h4, h5]
  simp only [Bool.not_true, Bool.false_eq_true, if_false, eq_self_iff_true, if_true]
  rw [hpr]
  dsimp only
  exact ⟨_, by rw [← List.append_assoc]⟩

/-- C8 witness: a run with a dirty staged tree and a 422 PR-creation
response. -/
theorem sync_pr_create_failure_no_rollback_witness :
    (¬ (trimString "M x" = "") ∧
      (SyncWorld.mk true (HttpResp.mk true 200 "OK" "") [] "M x" true true
        (HttpResp.mk false 422 "Unprocessable Entity" "boom") "u2").createResp.ok = false) ∧
    ∃ pre,
      sync ["root"] ["tmp"] (some "42")
        (Env.mk (some "tok") (some "apps/formio-server") (some "formio-server") none none)
        true (HttpResp.mk true 200 "OK" "")
        (PullRequest.mk 42 "T" "u" none (PRUser.mk "alice" none none) (some "m"))
        (SyncWorld.mk true (HttpResp.mk true 200 "OK" "") [] "M x" true true
          (HttpResp.mk false 422 "Unprocessable Entity" "boom") "u2")
        (FS.mk [] []) "123456" =
        (pre ++ [Event.httpPostCreatePR monorepoPullsUrl,
          Event.logPrCreateFailed
            (SyncWorld.mk true (HttpResp.mk true 200 "OK" "") [] "M x" true true
              (HttpResp.mk false 422 "Unprocessable Entity" "boom") "u2").createResp.status
            (SyncWorld.mk true (HttpResp.mk true 200 "OK" "") [] "M x" true true
              (HttpResp.mk false 422 "Unprocessable Entity" "boom") "u2").createResp.body],
          Outcome.ok ()) :=
  ⟨⟨by decide, rfl⟩,
    sync_pr_create_failure_no_rollback ["root"] ["tmp"] (some "42")
      (Env.mk (some "tok") (some "apps/formio-server") (some "formio-server") none none)
      (HttpResp.mk true 200 "OK" "")
      (PullRequest.mk 42 "T" "u" none (PRUser.mk "alice" none none) (some "m"))
      (SyncWorld.mk true (HttpResp.mk true 200 "OK" "") [] "M x" true true
        (HttpResp.mk false 422 "Unprocessable Entity" "boom") "u2")
      (FS.mk [] []) "123456" (FS.mk [] []) []
      rfl rfl rfl rfl rfl rfl rfl rfl (by decide) rfl rfl rfl⟩
